import Mathlib

/-!
Verification of the `raspimcu` device-discovery / file-transfer library.

This file gives a shallow embedding of the JavaScript sources
(`src/lib/index.js` (devices), `src/lib/fileTransfer.js`, `src/lib/firmware.js`,
`src/lib/picotool.js`) and proves properties about the embedded definitions.

Modelling conventions:
* JS strings are Lean `String` (a structure holding a `List Char`); the
  JS string operations used by the code (`startsWith`, `endsWith`,
  `toLowerCase`, `toUpperCase`, `trim`, `padStart`, `split`, `replace` of a
  leading `0x`) are re-implemented below over `List Char`, restricted to the
  ASCII behaviour the code relies on.
* Node's POSIX `path.resolve` / `path.join` are modelled for the
  non-Windows platform branch (the `win32` branch additionally lowercases
  both sides of the containment comparison and uses drive letters; it is not
  modelled).  `path.resolve(p)` against the process working directory is
  modelled by an explicit `cwd` argument.
* The filesystem and external processes are inputs: a structure of total
  functions describing what each `fs` call observes, and an `exec` function
  giving the outcome of a spawn.  A JS `throw` is an `Except.error`.
-/

deriving instance DecidableEq for Except

namespace Raspimcu

/-! ## JS string primitives -/

/-- JS whitespace test, restricted to the ASCII whitespace characters
(`\s` also matches some unicode spaces; the inputs treated here are ASCII). -/
def isJsSpace (c : Char) : Bool :=
  c = ' ' || c = '\t' || c = '\n' || c = '\r' || c = '\x0b' || c = '\x0c'

/-- Boolean list-prefix test (semantics of JS `String.prototype.startsWith`). -/
def isPrefixOfB : List Char → List Char → Bool
  | [], _ => true
  | _ :: _, [] => false
  | a :: as, b :: bs => a == b && isPrefixOfB as bs

/-- JS `s.startsWith(pat)`. -/
def strStartsWith (s pat : String) : Bool :=
  isPrefixOfB pat.data s.data

/-- JS `s.endsWith(pat)`. -/
def strEndsWith (s pat : String) : Bool :=
  isPrefixOfB pat.data.reverse s.data.reverse

/-- JS `s.toLowerCase()` on a char list (ASCII). -/
def jsToLowerL (l : List Char) : List Char := l.map Char.toLower

/-- JS `s.toUpperCase()` on a char list (ASCII). -/
def jsToUpperL (l : List Char) : List Char := l.map Char.toUpper

def jsToLowerStr (s : String) : String := ⟨jsToLowerL s.data⟩

/-- JS `s.trim()` on a char list. -/
def jsTrimL (l : List Char) : List Char :=
  ((l.dropWhile isJsSpace).reverse.dropWhile isJsSpace).reverse

def jsTrimStr (s : String) : String := ⟨jsTrimL s.data⟩

/-- JS truthiness for an optional string: `undefined`/`null`/`""` are falsy. -/
def jsTruthy : Option String → Option String
  | none => none
  | some s => if s = "" then none else some s

/-- JS `a || b` for a possibly-absent string `a` with string fallback `b`. -/
def jsOrStr (a : Option String) (b : String) : String :=
  match jsTruthy a with
  | some s => s
  | none => b

/-! ## Node POSIX path model -/

/-- Split a char list at `'/'` separators (worker for `segments`). -/
def splitSlashAux : List Char → List Char → List (List Char)
  | [], acc => [acc.reverse]
  | c :: rest, acc =>
    if c = '/' then acc.reverse :: splitSlashAux rest []
    else splitSlashAux rest (c :: acc)

/-- The non-empty `'/'`-separated segments of a path string. -/
def segments (s : String) : List String :=
  ((splitSlashAux s.data []).filter (fun l => !l.isEmpty)).map (fun l => ⟨l⟩)

/-- One step of Node's path normalization over an absolute path:
`"."` is dropped, `".."` removes the previous segment (staying at the root
when there is none), anything else is kept. -/
def normStep (acc : List String) (seg : String) : List String :=
  if seg = "." then acc
  else if seg = ".." then acc.dropLast
  else acc ++ [seg]

/-- Node's normalization of the segment list of an absolute path. -/
def normSegs (l : List String) : List String := l.foldl normStep []

/-- Join segments with `'/'`. -/
def joinSegs : List String → String
  | [] => ""
  | [s] => s
  | s :: rest => s ++ "/" ++ joinSegs rest

/-- Render an absolute path from its normalized segments. -/
def renderAbs (segs : List String) : String := "/" ++ joinSegs segs

/-- Node POSIX `path.resolve(base, target)` where `base` is an absolute
path (in the sources the base is either the process working directory or a
previously resolved absolute path). -/
def resolveFrom (base target : String) : String :=
  if strStartsWith target "/" then renderAbs (normSegs (segments target))
  else renderAbs (normSegs (segments base ++ segments target))

/-- Node POSIX `path.join(a, b)` for the joins performed by the sources
(the second component is a plain file name, so no normalization occurs). -/
def pathJoin (a b : String) : String := a ++ "/" ++ b

/-! ## `src/lib/fileTransfer.js` -/

/-- `resolveWithinMount(mountPoint, targetPath)` (POSIX branch: the
`win32` branch lowercases both sides of the comparison before the check).
Resolves the target against the resolved mount and accepts it iff the
resolved string starts with the resolved-mount string. -/
def resolveWithinMount (cwd mountPoint targetPath : String) : Except String String :=
  let absoluteMount := resolveFrom cwd mountPoint
  let resolvedPath := resolveFrom absoluteMount targetPath
  if strStartsWith resolvedPath absoluteMount then .ok resolvedPath
  else .error ("Path " ++ targetPath ++ " escapes the mount point " ++ mountPoint)

/-! ## `src/lib/index.js`: vendor-id normalization -/

/-- A raw vendor/product id as reported by the host: a JS number or string. -/
inductive HexInput where
  | num (n : Nat)
  | str (s : String)
deriving DecidableEq, Repr

/-- JS `String(value).replace(/^0x/i, '')`: strip one leading `0x`/`0X`. -/
def stripHexPrefixL (l : List Char) : List Char :=
  match l with
  | a :: c :: rest => if a = '0' ∧ (c = 'x' ∨ c = 'X') then rest else a :: c :: rest
  | _ => l

/-- JS `s.padStart(4, '0')`. -/
def padStart4 (l : List Char) : List Char :=
  List.replicate (4 - l.length) '0' ++ l

/-- `normalizeHex` on a string argument. -/
def normalizeHexStr (s : String) : String :=
  ⟨padStart4 (jsToUpperL (stripHexPrefixL s.data))⟩

/-- `normalizeHex(value)`: `undefined`/`null` pass through; numbers are
printed in base 16 (JS `value.toString(16)`, lowercase digits); strings are
stripped of a leading `0x`, uppercased and left-padded to four digits. -/
def normalizeHex : Option HexInput → Option String
  | none => none
  | some (.num n) => some ⟨padStart4 (jsToUpperL (Nat.toDigits 16 n))⟩
  | some (.str s) => some (normalizeHexStr s)

/-- `normalizeVendorId` (an alias of `normalizeHex` in the source). -/
def normalizeVendorId : Option HexInput → Option String := normalizeHex

/-- `RASPBERRY_PI_VENDOR_IDS` (a `Set` in the source). -/
def RASPBERRY_PI_VENDOR_IDS : List String := ["2E8A"]

/-- `BOOTSEL_PRODUCT_IDS` (a `Set` in the source). -/
def BOOTSEL_PRODUCT_IDS : List String := ["0003", "0004"]

/-! ## `src/lib/index.js`: RP2040 storage hints (the three regexes) -/

/-- Scan every suffix of a char list with a predicate (regex search). -/
def scanSuffixes (p : List Char → Bool) : List Char → Bool
  | [] => p []
  | c :: rest => p (c :: rest) || scanSuffixes p rest

/-- `/RP2040/i`: case-insensitive substring search. -/
def hintRp2040 (s : String) : Bool :=
  scanSuffixes (fun l => isPrefixOfB "rp2040".data l) (jsToLowerL s.data)

/-- Does a lowered suffix start with `rpi`, an optional single `-`/`_`/space,
then `rp2` (the body of `/RPI[-_ ]?RP2/i`)? -/
def rpiRp2At (l : List Char) : Bool :=
  isPrefixOfB "rpi".data l &&
    (isPrefixOfB "rp2".data (l.drop 3) ||
      (match l.drop 3 with
       | c :: rest => (c = '-' || c = '_' || c = ' ') && isPrefixOfB "rp2".data rest
       | [] => false))

/-- `/RPI[-_ ]?RP2/i`. -/
def hintRpiRp2 (s : String) : Bool :=
  scanSuffixes rpiRp2At (jsToLowerL s.data)

/-- JS `\w`: ASCII word character. -/
def isWordChar (c : Char) : Bool := c.isAlphanum || c = '_'

/-- Scan for `pico` delimited by word boundaries; `prev` is the character
just before the current suffix (none at the start of the string). -/
def picoAux (prev : Option Char) : List Char → Bool
  | [] => false
  | c :: rest =>
    (isPrefixOfB "pico".data (c :: rest) &&
      (match prev with | none => true | some p => !isWordChar p) &&
      (match (c :: rest).drop 4 with | [] => true | d :: _ => !isWordChar d))
    || picoAux (some c) rest

/-- `/\bPICO\b/i`. -/
def hintPico (s : String) : Bool :=
  picoAux none (jsToLowerL s.data)

/-- `RP2040_STORAGE_HINTS.some((regex) => regex.test(value))`. -/
def matchesAnyHint (s : String) : Bool :=
  hintRp2040 s || hintRpiRp2 s || hintPico s

/-! ## `src/lib/index.js`: devices -/

inductive DeviceType where
  | serial
  | storage
deriving DecidableEq, Repr

/-- A discovered device.  Serial and storage variants share one record; a
field the corresponding JS object does not set is `none`. -/
structure Device where
  id : String
  type : DeviceType
  status : String
  path : Option String := none
  manufacturer : Option String := none
  serialNumber : Option String := none
  vendorId : Option HexInput := none
  productId : Option HexInput := none
  locationId : Option String := none
  friendlyName : Option String := none
  mountPoint : Option String := none
  boardId : Option String := none
  model : Option String := none
  infoFile : Option String := none
  description : String
deriving DecidableEq, Repr

/-- A raw record from `SerialPort.list()`. -/
structure PortInfo where
  path : Option String := none
  pnpId : Option String := none
  manufacturer : Option String := none
  serialNumber : Option String := none
  vendorId : Option HexInput := none
  productId : Option HexInput := none
  locationId : Option String := none
  friendlyName : Option String := none
deriving DecidableEq, Repr

/-- The `devices.push({...})` record built for a serial port (the
normalized `vendorId`/`productId` strings are what the JS object stores). -/
def mkSerialDevice (port : PortInfo) (vendorId productId : Option String) : Device :=
  { id := jsOrStr port.path (jsOrStr port.pnpId
      ((vendorId.getD "unknown") ++ ":" ++ (productId.getD "unknown")))
    type := .serial
    status := "serial"
    path := port.path
    manufacturer := port.manufacturer
    serialNumber := port.serialNumber
    vendorId := vendorId.map .str
    productId := productId.map .str
    locationId := port.locationId
    friendlyName := port.friendlyName
    description := jsOrStr port.friendlyName
      (jsOrStr port.manufacturer "Raspberry Pi MCU (serial mode)") }

/-- The loop body of `listSerialPorts`: `continue` for ports whose
normalized vendor id is present but not in the accepted set, otherwise
build the serial `Device`.  (A normalized id is never the empty string, so
JS truthiness of `vendorId` coincides with presence.) -/
def serialDeviceOfPort (port : PortInfo) : Option Device :=
  let vendorId := normalizeHex port.vendorId
  let productId := normalizeHex port.productId
  match vendorId with
  | some v =>
    if !RASPBERRY_PI_VENDOR_IDS.contains v then none
    else some (mkSerialDevice port vendorId productId)
  | none => some (mkSerialDevice port vendorId productId)

/-- `listSerialPorts` applied to the port list returned by the host. -/
def listSerialPorts (ports : List PortInfo) : List Device :=
  ports.filterMap serialDeviceOfPort

/-- `listSerialPorts` including its failure modes: `none` models the
`serialport` module failing to load; an inner `.error` models
`SerialPort.list()` rejecting. -/
def listSerialPortsE : Option (Except String (List PortInfo)) → Except String (List Device)
  | none => .error "serialport package is not available. Install it to enable serial device detection."
  | some (.error m) => .error ("Unable to enumerate serial ports: " ++ m)
  | some (.ok ports) => .ok (listSerialPorts ports)

/-! ## Filesystem model -/

/-- What `fs.stat` reports for a path. -/
inductive FileKind where
  | file
  | dir
  | other
deriving DecidableEq, Repr

/-- The filesystem observations the sources make.  `stat p = none` models
`fs.stat` throwing (e.g. `ENOENT`); `readFile`/`readdir` errors model the
corresponding rejections; `pathExists` never rejects (`fs-extra`). -/
structure FS where
  stat : String → Option FileKind
  pathExists : String → Bool
  readFile : String → Except String String
  readdir : String → Except String (List String)

/-! ## `src/lib/index.js`: `extractInfoValue` -/

/-- `infoContents.match(new RegExp(key + ':[^\n]*', 'i'))`: find the
leftmost, case-insensitive occurrence of `key` followed by `:` and return
it together with the rest of its line (`[^\n]*` is greedy).  The regex is
not anchored, so the occurrence may start anywhere in the text. -/
def jsMatchKeyLine (key : List Char) : List Char → Option (List Char)
  | [] => none
  | c :: rest =>
    if isPrefixOfB (jsToLowerL key ++ [':']) (jsToLowerL (c :: rest)) then
      some ((c :: rest).take (key.length + 1)
        ++ ((c :: rest).drop (key.length + 1)).takeWhile (fun d => d != '\n'))
    else jsMatchKeyLine key rest

/-- Split a char list at every `':'` (worker for `splitColonWs`). -/
def splitColonAux : List Char → List Char → List (List Char)
  | [], acc => [acc.reverse]
  | c :: rest, acc =>
    if c = ':' then acc.reverse :: splitColonAux rest []
    else splitColonAux rest (c :: acc)

/-- `s.split(/:\s*/)`: split at each colon, consuming the whitespace run
that follows it.  Since `\s` never matches `':'`, this equals splitting at
each `':'` and then stripping the leading whitespace of every piece after
the first. -/
def splitColonWs (l : List Char) : List (List Char) :=
  match splitColonAux l [] with
  | [] => []
  | first :: rest => first :: rest.map (fun piece => piece.dropWhile isJsSpace)

/-- `extractInfoValue(infoContents, key)`: falsy contents give `undefined`;
otherwise the matched region is split on `/:\s*/` and the second piece is
returned trimmed (`undefined` when that piece is empty). -/
def extractInfoValue (infoContents : String) (key : String) : Option String :=
  if infoContents.data.isEmpty then none
  else
    match jsMatchKeyLine key.data infoContents.data with
    | none => none
    | some m =>
      match (splitColonWs m).drop 1 with
      | [] => none
      | v :: _ => if v.isEmpty then none else some ⟨jsTrimL v⟩

/-! ## `src/lib/index.js`: storage probing and discovery -/

/-- The storage-device object literal built by `isBoardStorage` from the
volume path and the info-file contents (`boardId`/`model` are the two
extracted fields; JS `||` on them gives the description). -/
def storageDeviceOf (volumePath infoContents : String) : Device :=
  { id := "storage:" ++ volumePath
    type := .storage
    status := "fs"
    mountPoint := some volumePath
    boardId := extractInfoValue infoContents "Board-ID"
    model := extractInfoValue infoContents "Model"
    infoFile := jsTruthy (some (jsTrimStr infoContents))
    description := jsOrStr (extractInfoValue infoContents "Model")
      (jsOrStr (extractInfoValue infoContents "Board-ID")
        "Raspberry Pi MCU (filesystem mode)") }

/-- `isBoardStorage(volumePath)`: `none` is the JS `false` return.  Read
errors on the info file degrade to empty contents. -/
def isBoardStorage (fs : FS) (volumePath : String) : Option Device :=
  match fs.stat volumePath with
  | some .dir =>
    if !fs.pathExists (pathJoin volumePath "INFO_UF2.TXT")
        && !fs.pathExists (pathJoin volumePath "INDEX.HTM") then none
    else
      some (storageDeviceOf volumePath
        (if fs.pathExists (pathJoin volumePath "INFO_UF2.TXT") then
          match fs.readFile (pathJoin volumePath "INFO_UF2.TXT") with
          | .ok s => s
          | .error _ => ""
         else ""))
  | _ => none

/-- One iteration of the root loop of `findMountedBoards`: results pushed
before a throw survive, so a root whose `readdir` rejects still
contributes its own probe.  A rejected `readdir` aborts the children scan
(the surrounding `catch` swallows the error). -/
def scanRoot (fs : FS) (root : String) : List Device :=
  if !fs.pathExists root then []
  else
    match fs.stat root with
    | some .dir =>
      let rootBoard := (isBoardStorage fs root).toList
      match fs.readdir root with
      | .error _ => rootBoard
      | .ok entries =>
        rootBoard ++ entries.filterMap (fun entry => isBoardStorage fs (pathJoin root entry))
    | some _ => []
    | none => []

/-- The `Map`-based loop of `dedupeById`: keep a device iff its id was not
seen earlier; output order is first-occurrence order. -/
def dedupeGo (seen : List String) : List Device → List Device
  | [] => []
  | d :: rest =>
    if d.id ∈ seen then dedupeGo seen rest
    else d :: dedupeGo (d.id :: seen) rest

/-- `dedupeById(devices)`. -/
def dedupeById (devices : List Device) : List Device := dedupeGo [] devices

/-- `findMountedBoards(searchRoots)`. -/
def findMountedBoards (fs : FS) (searchRoots : List String) : List Device :=
  dedupeById ((searchRoots.map (scanRoot fs)).flatten)

/-! ## `src/lib/index.js`: classification and `listDevices` -/

/-- `isRp2040StorageDevice(device)`: some haystack among `boardId`,
`model`, `infoFile` is a string matching one of the hint regexes. -/
def isRp2040StorageDevice (device : Device) : Bool :=
  [device.boardId, device.model, device.infoFile].any fun value =>
    match value with
    | some s => matchesAnyHint s
    | none => false

/-- `isRp2040Device(device)` (the model is typed, so the JS guard against
non-object arguments has no counterpart). -/
def isRp2040Device (device : Device) : Bool :=
  match device.type with
  | .serial =>
    match normalizeVendorId device.vendorId with
    | some v => RASPBERRY_PI_VENDOR_IDS.contains v
    | none => false
  | .storage => isRp2040StorageDevice device

/-- `filterRp2040Devices(devices)`. -/
def filterRp2040Devices (devices : List Device) : List Device :=
  devices.filter isRp2040Device

structure ErrEntry where
  source : String
  error : String
deriving DecidableEq, Repr

structure ListResult where
  devices : List Device
  errors : List ErrEntry
deriving DecidableEq, Repr

/-- The `try`/`catch` structure of `listDevices`: each discovery source
either yields devices or an error entry; the surviving devices are merged
(serial first) and classified. -/
def listDevicesCore (serialSource storageSource : Except String (List Device)) : ListResult :=
  let (serialDevices, serialErrors) :=
    match serialSource with
    | .ok ds => (ds, ([] : List ErrEntry))
    | .error e => ([], [{ source := "serial", error := e }])
  let (storageDevices, storageErrors) :=
    match storageSource with
    | .ok ds => (ds, ([] : List ErrEntry))
    | .error e => ([], [{ source := "storage", error := e }])
  { devices := filterRp2040Devices (serialDevices ++ storageDevices)
    errors := serialErrors ++ storageErrors }

inductive Platform where
  | darwin
  | win32
  | linuxish
deriving DecidableEq, Repr

/-- `getDefaultSearchRoots()`. -/
def getDefaultSearchRoots : Platform → List String
  | .darwin => ["/Volumes"]
  | .win32 => "ABCDEFGHIJKLMNOPQRSTUVWXYZ".data.map (fun c => ⟨[c]⟩ ++ ":\\")
  | .linuxish => ["/media", "/run/media", "/mnt"]

/-- `listDevices(options)`: `searchRoots` is the caller override (absent
models `undefined`; `findMountedBoards` itself never rejects once the
filesystem observations are total, so the storage source is `.ok`). -/
def listDevices (platform : Platform) (fs : FS)
    (serialPorts : Option (Except String (List PortInfo)))
    (searchRoots : Option (List String)) : ListResult :=
  listDevicesCore (listSerialPortsE serialPorts)
    (.ok (findMountedBoards fs (searchRoots.getD (getDefaultSearchRoots platform))))

/-! ## `src/lib/fileTransfer.js`: `ensureMountPoint` -/

/-- `ensureMountPoint(mountPoint)`: falsy argument and missing /
non-directory paths fail; otherwise the resolved absolute mount path is
returned. -/
def ensureMountPoint (fs : FS) (cwd mountPoint : String) : Except String String :=
  if mountPoint = "" then .error "A mount point is required."
  else
    match fs.stat mountPoint with
    | some .dir => .ok (resolveFrom cwd mountPoint)
    | _ => .error ("Mount point not found or not a directory: " ++ mountPoint)

/-! ## `src/lib/firmware.js` -/

/-- `assertUf2Filename(name, context)`. -/
def assertUf2Filename (name : String) (context : String) : Except String Unit :=
  if name = "" || !strEndsWith (jsToLowerStr name) ".uf2" then
    .error (context ++ " must reference a .uf2 file.")
  else .ok ()

/-- `autoDetectFirmwareFile(mountPoint)`: a rejected `readdir` degrades to
an empty listing; the first entry (in listing order) whose lowercased name
ends in `.uf2` is returned. -/
def autoDetectFirmwareFile (fs : FS) (mountPoint : String) : Option String :=
  let entries :=
    match fs.readdir mountPoint with
    | .ok es => es
    | .error _ => []
  entries.find? (fun entry => strEndsWith (jsToLowerStr entry) ".uf2")

/-- `downloadFirmware(mountPoint, destinationPath, options)`.  The
`fs.ensureDir`/`fs.copy` effects at the end are modelled as succeeding;
the returned pair is the JS `{source, destination}` record. -/
def downloadFirmware (fs : FS) (cwd mountPoint destinationPath : String)
    (filename : Option String) : Except String (String × String) :=
  match ensureMountPoint fs cwd mountPoint with
  | .error e => .error e
  | .ok resolvedMount =>
    let picked : Except String String :=
      match jsTruthy filename with
      | some f => .ok f
      | none =>
        match autoDetectFirmwareFile fs resolvedMount with
        | some f => .ok f
        | none => .error "No UF2 firmware file found on the device. Specify --filename to pick one explicitly."
    match picked with
    | .error e => .error e
    | .ok sourceFilename =>
      match assertUf2Filename sourceFilename "Source filename" with
      | .error e => .error e
      | .ok _ =>
        match resolveWithinMount cwd resolvedMount sourceFilename with
        | .error e => .error e
        | .ok source =>
          match fs.stat source with
          | some .file => .ok (sourceFilename, resolveFrom cwd destinationPath)
          | _ => .error ("Firmware file not found on device: " ++ sourceFilename)

/-! ## `src/lib/picotool.js` -/

/-- The error object `execa` rejects with (`code` is the spawn error code,
e.g. `'ENOENT'` when the binary is absent; non-zero exits and timeouts
carry other codes or none). -/
structure ExecError where
  code : Option String
  message : String
deriving DecidableEq, Repr

/-- A thrown JS error: either a fresh `Error` with a message, or the
propagated `execa` error object. -/
inductive JsError where
  | mk (message : String)
  | exec (e : ExecError)
deriving DecidableEq, Repr

/-- The options object of `putDeviceInFsMode`. -/
structure PicoOpts where
  serialNumber : Option String := none
  bus : Option Nat := none
  address : Option Nat := none
  drive : Option String := none
  picotoolPath : Option String := none
  timeout : Option Nat := none
deriving DecidableEq, Repr

/-- `resolveExecutable(commandPath)`. -/
def resolveExecutable (pathExistsF : String → Bool) (commandPath : Option String) :
    Except JsError String :=
  match jsTruthy commandPath with
  | none => .ok "picotool"
  | some p =>
    if pathExistsF p then .ok p
    else .error (.mk ("Specified picotool executable was not found: " ++ p))

/-- The argument list built by `putDeviceInFsMode`: a field is appended
iff it is set (`serialNumber`/`drive` are truthiness-checked, `bus` and
`address` are compared against `undefined`, so `0` is appended). -/
def buildPicotoolArgs (opts : PicoOpts) : List String :=
  ["reboot", "-f"]
    ++ (match jsTruthy opts.serialNumber with
        | some s => ["--serial", s]
        | none => [])
    ++ (match opts.bus with
        | some b => ["--bus", toString b]
        | none => [])
    ++ (match opts.address with
        | some a => ["--address", toString a]
        | none => [])
    ++ (match jsTruthy opts.drive with
        | some d => ["--drive", d]
        | none => [])

/-- `putDeviceInFsMode(options)`: `exec cmd args timeoutMs` is the outcome
of `execa(cmd, args, {timeout})`. -/
def putDeviceInFsMode (exec : String → List String → Nat → Except ExecError String)
    (pathExistsF : String → Bool) (opts : PicoOpts) : Except JsError String :=
  match resolveExecutable pathExistsF opts.picotoolPath with
  | .error e => .error e
  | .ok command =>
    match exec command (buildPicotoolArgs opts) (opts.timeout.getD 10000) with
    | .ok stdout => .ok (jsTrimStr stdout)
    | .error err =>
      if err.code = some "ENOENT" then
        .error (.mk "picotool is not installed or not available on the PATH.")
      else .error (.exec err)

/-! ## Concrete hosts used by witnesses and counterexamples -/

/-- A host with no serial ports, no mounted volumes and an empty filesystem. -/
def fsNone : FS :=
  { stat := fun _ => none
    pathExists := fun _ => false
    readFile := fun _ => .error "ENOENT"
    readdir := fun _ => .error "ENOENT" }

/-- A serial port record as `SerialPort.list()` reports it. -/
def portSample : PortInfo :=
  { path := some "/dev/ttyACM0"
    vendorId := some (.str "2e8a")
    productId := some (.str "0005") }

/-- A mounted volume `/mnt/rpi` whose listing reports `b.uf2` before `a.uf2`. -/
def fsFirmwareTwo : FS :=
  { stat := fun p =>
      if p = "/mnt/rpi" then some .dir
      else if p = "/mnt/rpi/b.uf2" then some .file
      else none
    pathExists := fun _ => false
    readFile := fun _ => .error "ENOENT"
    readdir := fun p => if p = "/mnt/rpi" then .ok ["b.uf2", "a.uf2"] else .error "ENOENT" }

/-- A mounted volume `/mnt/rpi` containing no `.uf2` entry. -/
def fsFirmwareNone : FS :=
  { stat := fun p => if p = "/mnt/rpi" then some .dir else none
    pathExists := fun _ => false
    readFile := fun _ => .error "ENOENT"
    readdir := fun p => if p = "/mnt/rpi" then .ok ["readme.txt"] else .error "ENOENT" }

/-- A mounted Pico volume with the scenario's `INFO_UF2.TXT`. -/
def fsPicoVolume : FS :=
  { stat := fun p => if p = "/Volumes/RPI-RP2" then some .dir else none
    pathExists := fun p => p = "/Volumes/RPI-RP2/INFO_UF2.TXT"
    readFile := fun p =>
      if p = "/Volumes/RPI-RP2/INFO_UF2.TXT" then .ok "Board-ID: RPI-RP2\nModel: Pico\n"
      else .error "ENOENT"
    readdir := fun _ => .error "ENOENT" }

/-- A storage device probed from a Pico in BOOTSEL mode. -/
def storageRpiRp2Device : Device :=
  { id := "storage:/media/user/RPI-RP2"
    type := .storage
    status := "fs"
    mountPoint := some "/media/user/RPI-RP2"
    boardId := some "RPI-RP2"
    model := some "Raspberry Pi Pico"
    description := "Raspberry Pi Pico" }

/-- A storage device from a different vendor's board, with no RP2040 hints. -/
def storageSamd21Device : Device :=
  { id := "storage:/media/user/FEATHER"
    type := .storage
    status := "fs"
    mountPoint := some "/media/user/FEATHER"
    boardId := some "SAMD21"
    model := some "Feather"
    description := "Feather" }

/-- A serial device exposing the Raspberry Pi vendor id. -/
def serialPicoDevice : Device :=
  { id := "/dev/ttyACM0"
    type := .serial
    status := "serial"
    path := some "/dev/ttyACM0"
    vendorId := some (.str "2E8A")
    description := "Raspberry Pi Pico" }

/-- A spawn function for a host where the `picotool` binary is absent. -/
def execAbsent : String → List String → Nat → Except ExecError String :=
  fun _ _ _ => .error { code := some "ENOENT", message := "spawn picotool ENOENT" }

/-- The reboot options of the spec scenario. -/
def optsSerialABC : PicoOpts := { serialNumber := some "ABC123" }

/-! ## Supporting lemmas -/

/-- Hex-digit test used to state which strings count as hex vendor ids. -/
def isHexDigit (c : Char) : Bool :=
  c.isDigit || ('a' ≤ c && c ≤ 'f') || ('A' ≤ c && c ≤ 'F')

theorem stripHexPrefixL_of_hex (l : List Char) (h : ∀ c ∈ l, isHexDigit c = true) :
    stripHexPrefixL l = l := by
  match l with
  | [] => rfl
  | [a] => rfl
  | a :: c :: rest =>
    show (if a = '0' ∧ (c = 'x' ∨ c = 'X') then rest else a :: c :: rest) = a :: c :: rest
    rw [if_neg]
    rintro ⟨-, hx | hX⟩
    · have := h c (by simp)
      rw [hx] at this
      exact absurd this (by decide)
    · have := h c (by simp)
      rw [hX] at this
      exact absurd this (by decide)

theorem strDataAppend (a b : String) : (a ++ b).data = a.data ++ b.data := rfl

theorem isPrefixOfB_append (c u v : List Char) :
    isPrefixOfB (c ++ u) (c ++ v) = isPrefixOfB u v := by
  induction c with
  | nil => rfl
  | cons a c ih => simp [isPrefixOfB, ih]

theorem takeWhile_append_of_all (p : Char → Bool) (l₁ l₂ : List Char)
    (h : ∀ c ∈ l₁, p c = true) :
    (l₁ ++ l₂).takeWhile p = l₁ ++ l₂.takeWhile p := by
  induction l₁ with
  | nil => rfl
  | cons a l ih =>
    rw [List.cons_append, List.takeWhile_cons, h a (List.mem_cons_self a l)]
    rw [ih (fun c hc => h c (List.mem_cons_of_mem a hc))]
    rfl

theorem splitColonAux_break (l₁ l₂ : List Char) :
    ∀ acc, ':' ∉ l₁ →
      splitColonAux (l₁ ++ ':' :: l₂) acc = (acc.reverse ++ l₁) :: splitColonAux l₂ [] := by
  induction l₁ with
  | nil => intro acc _; simp [splitColonAux]
  | cons a l ih =>
    intro acc h
    have ha : a ≠ ':' := fun he => h (he ▸ List.mem_cons_self a l)
    rw [List.cons_append]
    show (if a = ':' then acc.reverse :: splitColonAux (l ++ ':' :: l₂) []
        else splitColonAux (l ++ ':' :: l₂) (a :: acc))
      = (acc.reverse ++ a :: l) :: splitColonAux l₂ []
    rw [if_neg ha, ih (a :: acc) (fun hm => h (List.mem_cons_of_mem a hm))]
    simp

theorem jsMatchKeyLine_at_start (key l : List Char) (hne : l ≠ [])
    (h : isPrefixOfB (jsToLowerL key ++ [':']) (jsToLowerL l) = true) :
    jsMatchKeyLine key l
      = some (l.take (key.length + 1)
          ++ (l.drop (key.length + 1)).takeWhile (fun d => d != '\n')) := by
  cases l with
  | nil => exact absurd rfl hne
  | cons c rest =>
    simp only [jsMatchKeyLine]
    rw [if_pos h]

theorem strDataNe (s : String) (h : s ≠ "") : s.data ≠ [] := by
  intro hd
  apply h
  cases s with
  | mk d => cases hd; rfl

theorem splitSlashAux_no_slash : ∀ (l : List Char) (acc : List Char), '/' ∉ l →
    splitSlashAux l acc = [acc.reverse ++ l] := by
  intro l
  induction l with
  | nil => intro acc _; simp [splitSlashAux]
  | cons c rest ih =>
    intro acc h
    have hc : c ≠ '/' := fun he => h (he ▸ List.mem_cons_self c rest)
    show (if c = '/' then acc.reverse :: splitSlashAux rest []
        else splitSlashAux rest (c :: acc)) = [acc.reverse ++ c :: rest]
    rw [if_neg hc, ih (c :: acc) (fun hm => h (List.mem_cons_of_mem c hm))]
    simp

theorem splitSlashAux_break : ∀ (l₁ l₂ : List Char) (acc : List Char), '/' ∉ l₁ →
    splitSlashAux (l₁ ++ '/' :: l₂) acc = (acc.reverse ++ l₁) :: splitSlashAux l₂ [] := by
  intro l₁
  induction l₁ with
  | nil =>
    intro l₂ acc _
    show (if '/' = '/' then acc.reverse :: splitSlashAux l₂ []
        else splitSlashAux l₂ ('/' :: acc)) = (acc.reverse ++ []) :: splitSlashAux l₂ []
    rw [if_pos rfl]
    simp
  | cons a l ih =>
    intro l₂ acc h
    have ha : a ≠ '/' := fun he => h (he ▸ List.mem_cons_self a l)
    show (if a = '/' then acc.reverse :: splitSlashAux (l ++ '/' :: l₂) []
        else splitSlashAux (l ++ '/' :: l₂) (a :: acc))
      = (acc.reverse ++ a :: l) :: splitSlashAux l₂ []
    rw [if_neg ha, ih l₂ (a :: acc) (fun hm => h (List.mem_cons_of_mem a hm))]
    simp

theorem splitSlash_joinSegs : ∀ (segs : List String), segs ≠ [] →
    (∀ s ∈ segs, s ≠ "" ∧ '/' ∉ s.data) →
    splitSlashAux (joinSegs segs).data [] = segs.map String.data := by
  intro segs
  induction segs with
  | nil => intro h _; exact absurd rfl h
  | cons s rest ih =>
    intro _ h
    cases rest with
    | nil =>
      show splitSlashAux s.data [] = [s.data]
      have hs := splitSlashAux_no_slash s.data [] (h s (by simp)).2
      simpa using hs
    | cons t ts =>
      have hdata : (joinSegs (s :: t :: ts)).data
          = s.data ++ '/' :: (joinSegs (t :: ts)).data := by
        show ((s ++ "/") ++ joinSegs (t :: ts)).data = _
        rw [strDataAppend, strDataAppend, show ("/" : String).data = ['/'] from rfl]
        simp
      rw [hdata, splitSlashAux_break s.data _ [] (h s (by simp)).2]
      rw [ih (by simp) (fun x hx => h x (List.mem_cons_of_mem s hx))]
      simp

theorem mapMkData : ∀ l : List String, (l.map String.data).map (fun d => (⟨d⟩ : String)) = l := by
  intro l
  induction l with
  | nil => rfl
  | cons s rest ih =>
    cases s with
    | mk d => simp [ih]

theorem segments_renderAbs (segs : List String)
    (h : ∀ s ∈ segs, s ≠ "" ∧ '/' ∉ s.data) :
    segments (renderAbs segs) = segs := by
  unfold segments
  have hdata : (renderAbs segs).data = '/' :: (joinSegs segs).data := rfl
  rw [hdata]
  have hstep : splitSlashAux ('/' :: (joinSegs segs).data) []
      = [] :: splitSlashAux (joinSegs segs).data [] := by
    show (if '/' = '/' then ([] : List Char).reverse :: splitSlashAux (joinSegs segs).data []
        else splitSlashAux (joinSegs segs).data ['/'])
      = [] :: splitSlashAux (joinSegs segs).data []
    rw [if_pos rfl]
    rfl
  rw [hstep]
  cases segs with
  | nil => simp [joinSegs, splitSlashAux]
  | cons s rest =>
    rw [splitSlash_joinSegs (s :: rest) (by simp) h]
    have hfilter : (([] :: (s :: rest).map String.data).filter (fun l => !l.isEmpty))
        = (s :: rest).map String.data := by
      rw [List.filter_cons]
      have hemp : (!(([] : List Char).isEmpty)) = false := by decide
      rw [hemp]
      simp only [Bool.false_eq_true, if_false]
      apply List.filter_eq_self.mpr
      intro x hx
      obtain ⟨s', hs', rfl⟩ := List.mem_map.mp hx
      have hd := strDataNe s' (h s' hs').1
      simp [List.isEmpty_eq_false.mpr hd]
    rw [hfilter, mapMkData]

theorem normStep_clean (acc : List String) (s : String) (h1 : s ≠ ".") (h2 : s ≠ "..") :
    normStep acc s = acc ++ [s] := by
  unfold normStep
  rw [if_neg h1, if_neg h2]

theorem normStep_dotdot (acc : List String) : normStep acc ".." = acc.dropLast := by
  unfold normStep
  rw [if_neg (by decide), if_pos rfl]

theorem normSegs_clean_aux : ∀ (l : List String), (∀ s ∈ l, s ≠ "." ∧ s ≠ "..") →
    ∀ acc, List.foldl normStep acc l = acc ++ l := by
  intro l
  induction l with
  | nil => intro _ acc; simp
  | cons s rest ih =>
    intro h acc
    rw [List.foldl_cons, normStep_clean acc s (h s (by simp)).1 (h s (by simp)).2]
    rw [ih (fun x hx => h x (List.mem_cons_of_mem s hx)) (acc ++ [s])]
    simp

theorem resolveFrom_renderAbs_self (cwd : String) (segs : List String)
    (hM : ∀ s ∈ segs, s ≠ "" ∧ '/' ∉ s.data) (hN : ∀ s ∈ segs, s ≠ "." ∧ s ≠ "..") :
    resolveFrom cwd (renderAbs segs) = renderAbs segs := by
  unfold resolveFrom
  have habs : strStartsWith (renderAbs segs) "/" = true := by
    unfold strStartsWith
    rw [show (renderAbs segs).data = '/' :: (joinSegs segs).data from rfl,
      show ("/" : String).data = ['/'] from rfl]
    simp [isPrefixOfB]
  rw [habs]
  simp only [if_true]
  rw [segments_renderAbs segs hM]
  unfold normSegs
  rw [normSegs_clean_aux segs hN []]
  rfl

theorem renderAbs_cons_data (s : String) (m : List String) (hm : m ≠ []) :
    (renderAbs (s :: m)).data = ('/' :: s.data) ++ (renderAbs m).data := by
  cases m with
  | nil => exact absurd rfl hm
  | cons t ts =>
    show ("/" ++ joinSegs (s :: t :: ts)).data = _
    rw [show joinSegs (s :: t :: ts) = (s ++ "/") ++ joinSegs (t :: ts) from rfl]
    rw [strDataAppend, strDataAppend, strDataAppend,
      show ("/" : String).data = ['/'] from rfl]
    show ['/'] ++ ((s.data ++ ['/']) ++ (joinSegs (t :: ts)).data)
      = ('/' :: s.data) ++ ('/' :: (joinSegs (t :: ts)).data)
    simp

theorem prefixCompare : ∀ (init : List String) (a b : String),
    isPrefixOfB ((renderAbs (init ++ [a])).data) ((renderAbs (init ++ [b])).data)
      = isPrefixOfB a.data b.data := by
  intro init
  induction init with
  | nil =>
    intro a b
    show isPrefixOfB ('/' :: a.data) ('/' :: b.data) = isPrefixOfB a.data b.data
    simp [isPrefixOfB]
  | cons s rest ih =>
    intro a b
    simp only [List.cons_append]
    rw [renderAbs_cons_data s (rest ++ [a]) (by simp),
      renderAbs_cons_data s (rest ++ [b]) (by simp), isPrefixOfB_append]
    exact ih a b

theorem normSegs_escape (init : List String) (lastSeg : String)
    (h : ∀ s ∈ init ++ [lastSeg], s ≠ "." ∧ s ≠ "..") :
    normSegs ((init ++ [lastSeg]) ++ ["..", "escape.txt"]) = init ++ ["escape.txt"] := by
  unfold normSegs
  rw [List.foldl_append, normSegs_clean_aux (init ++ [lastSeg]) h []]
  simp only [List.nil_append, List.foldl_cons, List.foldl_nil]
  rw [normStep_dotdot, List.dropLast_concat,
    normStep_clean init "escape.txt" (by decide) (by decide)]

theorem dedupeGo_sublist (l : List Device) : ∀ seen, List.Sublist (dedupeGo seen l) l := by
  induction l with
  | nil => intro seen; exact List.Sublist.refl _
  | cons d rest ih =>
    intro seen
    unfold dedupeGo
    by_cases h : d.id ∈ seen
    · rw [if_pos h]
      exact List.Sublist.cons d (ih seen)
    · rw [if_neg h]
      exact List.Sublist.cons₂ d (ih (d.id :: seen))

theorem dedupeGo_ids_nodup (l : List Device) :
    ∀ seen, ((dedupeGo seen l).map Device.id).Nodup
      ∧ ∀ x ∈ (dedupeGo seen l).map Device.id, x ∉ seen := by
  induction l with
  | nil => intro seen; exact ⟨List.nodup_nil, by simp [dedupeGo]⟩
  | cons d rest ih =>
    intro seen
    unfold dedupeGo
    by_cases h : d.id ∈ seen
    · rw [if_pos h]
      exact ih seen
    · rw [if_neg h]
      obtain ⟨hnodup, hfresh⟩ := ih (d.id :: seen)
      refine ⟨List.nodup_cons.mpr ⟨fun hmem => ?_, hnodup⟩, ?_⟩
      · exact hfresh d.id hmem (List.mem_cons_self _ _)
      · intro x hx
        simp only [List.map_cons, List.mem_cons] at hx
        rcases hx with rfl | hx
        · exact h
        · intro hxseen
          exact hfresh x hx (List.mem_cons_of_mem _ hxseen)

theorem dedupeGo_find (l : List Device) :
    ∀ seen (k : String), k ∉ seen →
      (dedupeGo seen l).find? (fun d => d.id == k) = l.find? (fun d => d.id == k) := by
  induction l with
  | nil => intro seen k _; rfl
  | cons d rest ih =>
    intro seen k hk
    unfold dedupeGo
    by_cases h : d.id ∈ seen
    · rw [if_pos h]
      have hne : (d.id == k) = false :=
        beq_eq_false_iff_ne.mpr (fun he => hk (he ▸ h))
      rw [ih seen k hk]
      simp [List.find?, hne]
    · rw [if_neg h]
      by_cases he : d.id = k
      · have hp : (d.id == k) = true := beq_iff_eq.mpr he
        simp [List.find?, hp]
      · have hne : (d.id == k) = false := beq_eq_false_iff_ne.mpr he
        simp only [List.find?, hne]
        exact ih (d.id :: seen) k (by
          intro hmem
          rcases List.mem_cons.mp hmem with rfl | hmem
          · exact he rfl
          · exact hk hmem)

/-! ## Claims -/

/-- C2: `listDevices` never throws: each discovery source's failure is
recorded as an `errors` entry with its source name while the other
source's devices are kept (and classified), and a host with no matching
serial ports and no matching storage volumes yields an empty device list
and an empty error list. -/
theorem listDevices_never_throws :
    (∀ (e : String) (ds : List Device),
        listDevicesCore (.error e) (.ok ds)
          = { devices := filterRp2040Devices ds
              errors := [{ source := "serial", error := e }] })
  ∧ (∀ (e : String) (ds : List Device),
        listDevicesCore (.ok ds) (.error e)
          = { devices := filterRp2040Devices ds
              errors := [{ source := "storage", error := e }] })
  ∧ (∀ (e₁ e₂ : String),
        listDevicesCore (.error e₁) (.error e₂)
          = { devices := []
              errors := [{ source := "serial", error := e₁ },
                         { source := "storage", error := e₂ }] })
  ∧ listDevices .linuxish fsNone (some (.ok [])) none = { devices := [], errors := [] } := by
  refine ⟨fun e ds => ?_, fun e ds => ?_, fun e₁ e₂ => ?_, by decide⟩
  · simp [listDevicesCore]
  · simp [listDevicesCore]
  · simp [listDevicesCore, filterRp2040Devices]

/-- C10: the containment check of `resolveWithinMount` is a raw
string-prefix comparison on resolved paths, so the sibling directory
`/mnt/rpi2` passes the check for mount `/mnt/rpi`: the call succeeds and
returns the outside path `/mnt/rpi2/f` (which is neither the mount itself
nor under `mount + "/"`). -/
theorem resolveWithinMount_sibling_escape :
    resolveWithinMount "/" "/mnt/rpi" "../rpi2/f" = .ok "/mnt/rpi2/f"
  ∧ strStartsWith "/mnt/rpi2/f" ("/mnt/rpi" ++ "/") = false
  ∧ "/mnt/rpi2/f" ≠ "/mnt/rpi" := by decide

/-- C1 counterexample: the claim says `resolveWithinMount(m, "../escape.txt")`
fails for every mount path `m`, but for the mount `/mnt/esc` the escaping
target resolves to `/mnt/escape.txt`, which extends the mount string, so
the call succeeds and returns the outside path. -/
theorem resolveWithinMount_escape_counterexample :
    resolveWithinMount "/" "/mnt/esc" "../escape.txt" = .ok "/mnt/escape.txt" := by decide

/-- C3 counterexample: `listDevices` does not deduplicate the merged list:
two serial ports with the same path yield two result entries sharing the
id `/dev/ttyACM0` (`dedupeById` is applied only to the storage list inside
`findMountedBoards`). -/
theorem listDevices_duplicate_id_counterexample :
    ((listDevices .linuxish fsNone (some (.ok [portSample, portSample])) (some [])).devices.map
        Device.id)
      = ["/dev/ttyACM0", "/dev/ttyACM0"] := by decide

/-- C7 counterexample: the extracted value is not the whole rest of the
line — `split(/:\s*/)` truncates it at the next colon (`Model: Pico: v2`
gives `Pico`, not `Pico: v2`) — and the key is matched anywhere in the
text, not only at the start of a line (`ThisModel: Zeta` gives `Zeta`). -/
theorem extractInfoValue_counterexample :
    extractInfoValue "Model: Pico: v2" "Model" = some "Pico"
  ∧ extractInfoValue "ThisModel: Zeta" "Model" = some "Zeta" := by decide

/-- C8 counterexample: with a directory listing that reports `b.uf2`
before `a.uf2`, `downloadFirmware` with no explicit filename copies
`b.uf2`, although `a.uf2` is a `.uf2` entry of the mount root that comes
lexicographically first: the selection follows listing order, not
lexicographic order. -/
theorem downloadFirmware_order_counterexample :
    downloadFirmware fsFirmwareTwo "/" "/mnt/rpi" "/tmp/out.uf2" none
      = .ok ("b.uf2", "/tmp/out.uf2")
  ∧ fsFirmwareTwo.readdir "/mnt/rpi" = .ok ["b.uf2", "a.uf2"]
  ∧ strEndsWith (jsToLowerStr "a.uf2") ".uf2" = true
  ∧ List.Lex (· < ·) "a.uf2".data "b.uf2".data :=
  ⟨by decide, by decide, by decide, List.Lex.rel (by decide)⟩

/-- C9: when spawning the resolved default `picotool` fails with the
`ENOENT` spawn code, `putDeviceInFsMode` fails with the friendly
"tool not installed" error and never surfaces the raw spawn error object;
any other invocation failure (non-zero exit, timeout) is propagated
verbatim. -/
theorem putDeviceInFsMode_spawn_translation
    (exec : String → List String → Nat → Except ExecError String)
    (pathExistsF : String → Bool) (opts : PicoOpts) (err : ExecError)
    (hdefault : opts.picotoolPath = none)
    (hspawn : exec "picotool" (buildPicotoolArgs opts) (opts.timeout.getD 10000) = .error err) :
    (err.code = some "ENOENT" →
        putDeviceInFsMode exec pathExistsF opts
          = .error (.mk "picotool is not installed or not available on the PATH.")
        ∧ ∀ e : ExecError, putDeviceInFsMode exec pathExistsF opts ≠ .error (.exec e))
  ∧ (err.code ≠ some "ENOENT" →
        putDeviceInFsMode exec pathExistsF opts = .error (.exec err)) := by
  have hres : putDeviceInFsMode exec pathExistsF opts
      = if err.code = some "ENOENT" then
          .error (.mk "picotool is not installed or not available on the PATH.")
        else .error (.exec err) := by
    unfold putDeviceInFsMode resolveExecutable
    rw [hdefault]
    simp only [jsTruthy]
    rw [hspawn]
  constructor
  · intro hcode
    rw [hres, if_pos hcode]
    exact ⟨rfl, fun e h => by simp at h⟩
  · intro hcode
    rw [hres, if_neg hcode]

/-- C9 witness: on a host where the helper binary is absent, rebooting
with `{serialNumber: "ABC123"}` fails with exactly the "tool not
installed" error. -/
theorem putDeviceInFsMode_spawn_translation_witness :
    putDeviceInFsMode execAbsent (fun _ => false) optsSerialABC
      = .error (.mk "picotool is not installed or not available on the PATH.") :=
  ((putDeviceInFsMode_spawn_translation execAbsent (fun _ => false) optsSerialABC
      { code := some "ENOENT", message := "spawn picotool ENOENT" } rfl rfl).1 rfl).1

/-- C5: `normalizeHex` is canonicalizing on hex-string vendor ids: inputs
differing only in letter case (equal uppercase images) or in a `0x`/`0X`
marker normalize identically, the result is the uppercase image left-padded
with `0` to four characters, and inputs of at most four digits always give
a four-character result. -/
theorem normalizeHex_canonical (s t : String)
    (hs : ∀ c ∈ s.data, isHexDigit c = true)
    (ht : ∀ c ∈ t.data, isHexDigit c = true)
    (hcase : jsToUpperL s.data = jsToUpperL t.data) :
    normalizeHexStr s = normalizeHexStr t
  ∧ normalizeHexStr ("0x" ++ s) = normalizeHexStr s
  ∧ normalizeHexStr ("0X" ++ s) = normalizeHexStr s
  ∧ normalizeHexStr s = ⟨padStart4 (jsToUpperL s.data)⟩
  ∧ (s.data.length ≤ 4 → (normalizeHexStr s).data.length = 4) := by
  have hstrip : ∀ (u : String), (∀ c ∈ u.data, isHexDigit c = true) →
      normalizeHexStr u = ⟨padStart4 (jsToUpperL u.data)⟩ := by
    intro u hu
    unfold normalizeHexStr
    rw [stripHexPrefixL_of_hex u.data hu]
  have hx : normalizeHexStr ("0x" ++ s) = normalizeHexStr s := by
    have hdata : ("0x" ++ s).data = '0' :: 'x' :: s.data := rfl
    unfold normalizeHexStr
    rw [hdata, stripHexPrefixL_of_hex s.data hs]
    have : stripHexPrefixL ('0' :: 'x' :: s.data) = s.data := by
      show (if ('0' : Char) = '0' ∧ (('x' : Char) = 'x' ∨ ('x' : Char) = 'X')
          then s.data else '0' :: 'x' :: s.data) = s.data
      rw [if_pos ⟨rfl, Or.inl rfl⟩]
    rw [this]
  have hX : normalizeHexStr ("0X" ++ s) = normalizeHexStr s := by
    have hdata : ("0X" ++ s).data = '0' :: 'X' :: s.data := rfl
    unfold normalizeHexStr
    rw [hdata, stripHexPrefixL_of_hex s.data hs]
    have : stripHexPrefixL ('0' :: 'X' :: s.data) = s.data := by
      show (if ('0' : Char) = '0' ∧ (('X' : Char) = 'x' ∨ ('X' : Char) = 'X')
          then s.data else '0' :: 'X' :: s.data) = s.data
      rw [if_pos ⟨rfl, Or.inr rfl⟩]
    rw [this]
  refine ⟨?_, hx, hX, hstrip s hs, ?_⟩
  · rw [hstrip s hs, hstrip t ht, hcase]
  · intro hlen
    rw [hstrip s hs]
    show (padStart4 (jsToUpperL s.data)).length = 4
    unfold padStart4 jsToUpperL
    rw [List.length_append, List.length_replicate, List.length_map]
    omega

/-- C5 witness: `0x2e8a`, `2e8a` and `2E8A` all normalize to `2E8A`. -/
theorem normalizeHex_canonical_witness :
    normalizeHexStr "2e8a" = normalizeHexStr "2E8A"
  ∧ normalizeHexStr "0x2e8a" = normalizeHexStr "2e8a"
  ∧ normalizeHexStr "2E8A" = "2E8A" :=
  ⟨(normalizeHex_canonical "2e8a" "2E8A" (by decide) (by decide) (by decide)).1,
   (normalizeHex_canonical "2e8a" "2e8a" (by decide) (by decide) rfl).2.1,
   by decide⟩

/-- C4: a serial device classifies as RP2040 iff its normalized vendor id
is in the accepted vendor-id set; a storage device classifies iff one of
`boardId`, `model`, `infoFile` is a string matching one of the
case-insensitive hints; in particular board id `RPI-RP2` classifies true
and board id `SAMD21` with no other matching hints classifies false. -/
theorem isRp2040Device_classification :
    (∀ d : Device, d.type = .serial →
        (isRp2040Device d = true ↔
          ∃ v, normalizeVendorId d.vendorId = some v
            ∧ RASPBERRY_PI_VENDOR_IDS.contains v = true))
  ∧ (∀ d : Device, d.type = .storage →
        (isRp2040Device d = true ↔
          ∃ s : String, some s ∈ [d.boardId, d.model, d.infoFile] ∧ matchesAnyHint s = true))
  ∧ isRp2040Device storageRpiRp2Device = true
  ∧ isRp2040Device storageSamd21Device = false := by
  refine ⟨fun d h => ?_, fun d h => ?_, by decide, by decide⟩
  · simp only [isRp2040Device, h]
    cases hv : normalizeVendorId d.vendorId with
    | none => simp
    | some v =>
      simp only []
      constructor
      · intro hc
        exact ⟨v, rfl, hc⟩
      · rintro ⟨v', hv', hc⟩
        cases hv'
        exact hc
  · simp only [isRp2040Device, h, isRp2040StorageDevice, List.any_eq_true]
    constructor
    · rintro ⟨o, ho, hp⟩
      cases o with
      | none => simp at hp
      | some s => exact ⟨s, ho, hp⟩
    · rintro ⟨s, hs, hp⟩
      exact ⟨some s, hs, hp⟩

/-- C4 witness: a serial device with vendor id `2E8A` classifies true. -/
theorem isRp2040Device_classification_witness :
    isRp2040Device serialPicoDevice = true ∧ serialPicoDevice.type = .serial :=
  ⟨(isRp2040Device_classification.1 serialPicoDevice rfl).mpr ⟨"2E8A", by decide, by decide⟩,
   rfl⟩

/-- C3 (amended): deduplication by id happens only inside
`findMountedBoards`, i.e. on the storage-discovery list (the merged
serial-before-storage list of `listDevices` is not deduplicated, see the
counterexample).  There, `dedupeById` keeps exactly one entry per id: its
output is an order-preserving sublist of its input, carries pairwise
distinct ids, and the entry kept for every id is the first-discovered one
(the `find?` of an id is unchanged). -/
theorem dedupeById_first_seen :
    (∀ fs roots, findMountedBoards fs roots = dedupeById ((roots.map (scanRoot fs)).flatten))
  ∧ (∀ l : List Device, List.Sublist (dedupeById l) l)
  ∧ (∀ l : List Device, ((dedupeById l).map Device.id).Nodup)
  ∧ (∀ (l : List Device) (k : String),
      (dedupeById l).find? (fun d => d.id == k) = l.find? (fun d => d.id == k)) :=
  ⟨fun _ _ => rfl,
   fun l => dedupeGo_sublist l [],
   fun l => (dedupeGo_ids_nodup l []).1,
   fun l k => dedupeGo_find l [] k (List.not_mem_nil k)⟩

/-- C6: probing a directory whose `INFO_UF2.TXT` reads
`Board-ID: RPI-RP2\nModel: Pico\n` yields a storage device with board id
`RPI-RP2`, model `Pico` and description `Pico`; and for every probed
device the description is the model if present, else the board id, else
the generic fallback label. -/
theorem isBoardStorage_info_probe :
    (∀ (fs : FS) (p : String),
        fs.stat p = some .dir →
        fs.pathExists (pathJoin p "INFO_UF2.TXT") = true →
        fs.readFile (pathJoin p "INFO_UF2.TXT") = .ok "Board-ID: RPI-RP2\nModel: Pico\n" →
        isBoardStorage fs p = some
          { id := "storage:" ++ p
            type := .storage
            status := "fs"
            mountPoint := some p
            boardId := some "RPI-RP2"
            model := some "Pico"
            infoFile := some "Board-ID: RPI-RP2\nModel: Pico"
            description := "Pico" })
  ∧ (∀ (fs : FS) (p : String) (d : Device),
        isBoardStorage fs p = some d →
        d.description
          = jsOrStr d.model (jsOrStr d.boardId "Raspberry Pi MCU (filesystem mode)")) := by
  constructor
  · intro fs p h1 h2 h3
    have e1 : extractInfoValue "Board-ID: RPI-RP2\nModel: Pico\n" "Board-ID"
        = some "RPI-RP2" := by decide
    have e2 : extractInfoValue "Board-ID: RPI-RP2\nModel: Pico\n" "Model"
        = some "Pico" := by decide
    have e3 : jsTruthy (some (jsTrimStr "Board-ID: RPI-RP2\nModel: Pico\n"))
        = some "Board-ID: RPI-RP2\nModel: Pico" := by decide
    have e4 : jsOrStr (some "Pico")
        (jsOrStr (some "RPI-RP2") "Raspberry Pi MCU (filesystem mode)") = "Pico" := by decide
    have hdev : storageDeviceOf p "Board-ID: RPI-RP2\nModel: Pico\n"
        = { id := "storage:" ++ p
            type := .storage
            status := "fs"
            mountPoint := some p
            boardId := some "RPI-RP2"
            model := some "Pico"
            infoFile := some "Board-ID: RPI-RP2\nModel: Pico"
            description := "Pico" } := by
      unfold storageDeviceOf
      rw [e1, e2, e3, e4]
    simp [isBoardStorage, h1, h2, h3, hdev]
  · intro fs p d h
    unfold isBoardStorage at h
    split at h
    · split at h
      · exact absurd h (by simp)
      · have hd := Option.some.inj h
        rw [← hd]
        rfl
    · exact absurd h (by simp)

/-- C6 witness: probing the concrete volume `/Volumes/RPI-RP2` of
`fsPicoVolume` returns the expected storage device. -/
theorem isBoardStorage_info_probe_witness :
    isBoardStorage fsPicoVolume "/Volumes/RPI-RP2" = some
      { id := "storage:/Volumes/RPI-RP2"
        type := .storage
        status := "fs"
        mountPoint := some "/Volumes/RPI-RP2"
        boardId := some "RPI-RP2"
        model := some "Pico"
        infoFile := some "Board-ID: RPI-RP2\nModel: Pico"
        description := "Pico" } :=
  isBoardStorage_info_probe.1 fsPicoVolume "/Volumes/RPI-RP2" rfl (by decide) (by decide)

/-- C8 (amended): `downloadFirmware` with no explicit filename selects the
first entry of the mount root's directory listing (in listing order, which
need not be lexicographic — see the counterexample) whose lowercased name
ends in `.uf2`, and when no such entry exists it fails with the specific
no-UF2-found message. -/
theorem downloadFirmware_autodetect_amended
    (fs : FS) (cwd mount dest : String) (entries : List String)
    (hmne : mount ≠ "") (hmdir : fs.stat mount = some .dir)
    (hls : fs.readdir (resolveFrom cwd mount) = .ok entries) :
    autoDetectFirmwareFile fs (resolveFrom cwd mount)
      = entries.find? (fun e => strEndsWith (jsToLowerStr e) ".uf2")
  ∧ ((∀ e ∈ entries, strEndsWith (jsToLowerStr e) ".uf2" = false) →
      downloadFirmware fs cwd mount dest none
        = .error "No UF2 firmware file found on the device. Specify --filename to pick one explicitly.") := by
  have hmount : ensureMountPoint fs cwd mount = .ok (resolveFrom cwd mount) := by
    unfold ensureMountPoint
    rw [if_neg hmne, hmdir]
  have hauto : autoDetectFirmwareFile fs (resolveFrom cwd mount)
      = entries.find? (fun e => strEndsWith (jsToLowerStr e) ".uf2") := by
    unfold autoDetectFirmwareFile
    rw [hls]
  refine ⟨hauto, fun hnone => ?_⟩
  have hfind : entries.find? (fun e => strEndsWith (jsToLowerStr e) ".uf2") = none :=
    List.find?_eq_none.mpr (fun x hx => by rw [hnone x hx]; exact Bool.false_ne_true)
  simp [downloadFirmware, hmount, jsTruthy, hauto, hfind]

/-- C8 witness: on a mount whose listing holds no `.uf2` entry, the
download fails with the specific message. -/
theorem downloadFirmware_autodetect_amended_witness :
    downloadFirmware fsFirmwareNone "/" "/mnt/rpi" "/tmp/out.uf2" none
      = .error "No UF2 firmware file found on the device. Specify --filename to pick one explicitly." :=
  (downloadFirmware_autodetect_amended fsFirmwareNone "/" "/mnt/rpi" "/tmp/out.uf2"
    ["readme.txt"] (by decide) (by decide) (by decide)).2 (by decide)

/-- C7 (amended): the `Board-ID`/`Model` extraction matches the key
case-insensitively anywhere in the text (not only at a line start — see
the counterexample); the matched region runs to the end of that line, and
the returned value is the text between the colon following the key and the
next colon of that region (not the whole rest of the line), with the
whitespace run after each colon consumed and the value trimmed.  Here the
text is `key ++ ": " ++ v ++ ":" ++ w ++ "\n" ++ tail` and the extracted
value is `v` trimmed, not `v ++ ":" ++ w`. -/
theorem extractInfoValue_amended
    (key v w tail : String)
    (hkcolon : ':' ∉ key.data)
    (hvcolon : ':' ∉ v.data)
    (hvnl : '\n' ∉ v.data)
    (hwnl : '\n' ∉ w.data)
    (hvne : v.data ≠ [])
    (hvhead : match v.data with | [] => True | c :: _ => isJsSpace c = false) :
    extractInfoValue (key ++ ": " ++ v ++ ":" ++ w ++ "\n" ++ tail) key
      = some (jsTrimStr v) := by
  obtain ⟨c₀, r, hv, hc₀⟩ : ∃ c₀ r, v.data = c₀ :: r ∧ isJsSpace c₀ = false := by
    cases hvd : v.data with
    | nil => exact absurd hvd hvne
    | cons c r =>
      rw [hvd] at hvhead
      exact ⟨c, r, rfl, hvhead⟩
  have htext : (key ++ ": " ++ v ++ ":" ++ w ++ "\n" ++ tail).data
      = key.data ++ ':' :: ' ' :: (v.data ++ ':' :: (w.data ++ '\n' :: tail.data)) := by
    simp only [strDataAppend, List.append_assoc]
    rfl
  have hlow : isPrefixOfB (jsToLowerL key.data ++ [':'])
      (jsToLowerL ((key ++ ": " ++ v ++ ":" ++ w ++ "\n" ++ tail).data)) = true := by
    rw [htext]
    unfold jsToLowerL
    rw [List.map_append, List.map_cons]
    have h1 : Char.toLower ':' = ':' := by decide
    rw [h1, isPrefixOfB_append]
    simp [isPrefixOfB]
  have htake : ((key ++ ": " ++ v ++ ":" ++ w ++ "\n" ++ tail).data).take (key.data.length + 1)
      = key.data ++ [':'] := by
    rw [htext, List.take_append_eq_append_take,
      List.take_of_length_le (Nat.le_succ _), Nat.add_sub_cancel_left]
    simp
  have hdrop : ((key ++ ": " ++ v ++ ":" ++ w ++ "\n" ++ tail).data).drop (key.data.length + 1)
      = ' ' :: (v.data ++ ':' :: (w.data ++ '\n' :: tail.data)) := by
    rw [htext, List.drop_append_eq_append_drop,
      List.drop_of_length_le (Nat.le_succ _), Nat.add_sub_cancel_left]
    simp
  have htw : ((' ' :: (v.data ++ ':' :: (w.data ++ '\n' :: tail.data))).takeWhile
        (fun d => d != '\n'))
      = ' ' :: (v.data ++ ':' :: w.data) := by
    have hshape : ' ' :: (v.data ++ ':' :: (w.data ++ '\n' :: tail.data))
        = (' ' :: (v.data ++ ':' :: w.data)) ++ ('\n' :: tail.data) := by
      simp
    rw [hshape, takeWhile_append_of_all]
    · rw [List.takeWhile_cons]
      norm_num
    · intro c hc
      rcases List.mem_cons.mp hc with rfl | hc
      · decide
      · rcases List.mem_append.mp hc with hc | hc
        · simp only [bne_iff_ne, ne_eq, decide_eq_true_eq]
          intro he
          exact hvnl (he ▸ hc)
        · rcases List.mem_cons.mp hc with rfl | hc
          · decide
          · simp only [bne_iff_ne, ne_eq, decide_eq_true_eq]
            intro he
            exact hwnl (he ▸ hc)
  have hmatch : jsMatchKeyLine key.data ((key ++ ": " ++ v ++ ":" ++ w ++ "\n" ++ tail).data)
      = some ((key.data ++ [':']) ++ (' ' :: (v.data ++ ':' :: w.data))) := by
    rw [jsMatchKeyLine_at_start key.data _ (by rw [htext]; simp) hlow, htake, hdrop, htw]
  have hsplit : splitColonWs ((key.data ++ [':']) ++ (' ' :: (v.data ++ ':' :: w.data)))
      = key.data :: v.data
          :: (splitColonAux w.data []).map (fun piece => piece.dropWhile isJsSpace) := by
    have hm : (key.data ++ [':']) ++ (' ' :: (v.data ++ ':' :: w.data))
        = key.data ++ ':' :: ((' ' :: v.data) ++ ':' :: w.data) := by
      simp
    rw [hm]
    unfold splitColonWs
    rw [splitColonAux_break key.data _ [] hkcolon,
      splitColonAux_break (' ' :: v.data) w.data []
        (by
          intro hmem
          rcases List.mem_cons.mp hmem with he | hmem
          · exact absurd he.symm (by decide)
          · exact hvcolon hmem)]
    simp only [List.reverse_nil, List.nil_append, List.map_cons]
    have hdw : (' ' :: v.data).dropWhile isJsSpace = v.data := by
      rw [List.dropWhile_cons]
      have hsp : isJsSpace ' ' = true := by decide
      rw [hsp, if_pos rfl, hv, List.dropWhile_cons, hc₀]
      simp
    rw [hdw]
  have hempty : ((key ++ ": " ++ v ++ ":" ++ w ++ "\n" ++ tail).data).isEmpty = false := by
    rw [htext]
    simp
  unfold extractInfoValue
  rw [hempty, hmatch]
  simp only [Bool.false_eq_true, if_false, hsplit, List.drop_succ_cons, List.drop_zero]
  rw [hv]
  simp [jsTrimStr, hv]

/-- C7 witness: `Model: Pico: v2\n` yields the value `Pico`, cut at the
second colon and trimmed. -/
theorem extractInfoValue_amended_witness :
    extractInfoValue "Model: Pico: v2\n" "Model" = some "Pico" := by
  have h := extractInfoValue_amended "Model" "Pico" " v2" ""
    (by decide) (by decide) (by decide) (by decide) (by decide) (by decide)
  have he : ("Model" ++ ": " ++ "Pico" ++ ":" ++ " v2" ++ "\n" ++ "" : String)
      = "Model: Pico: v2\n" := by decide
  have hp : jsTrimStr "Pico" = "Pico" := by decide
  rw [he, hp] at h
  exact h

/-- C1 (amended): `resolveWithinMount(m, "../escape.txt")` fails with the
mount-escape error for every absolute mount path `m` (given as its clean
`'/'`-separated segments, at least one) whose final segment is not a
character-prefix of `escape.txt`.  When the final segment is such a prefix
(e.g. mount `/mnt/esc`, or the filesystem root) the call instead returns
the resolved path — see the counterexample — so the claim's "for every
mount path" does not hold. -/
theorem resolveWithinMount_escape_amended
    (cwd : String) (init : List String) (lastSeg : String)
    (hclean : ∀ s ∈ init ++ [lastSeg], s ≠ "" ∧ s ≠ "." ∧ s ≠ ".." ∧ '/' ∉ s.data)
    (hlast : isPrefixOfB lastSeg.data "escape.txt".data = false) :
    resolveWithinMount cwd (renderAbs (init ++ [lastSeg])) "../escape.txt"
      = .error ("Path " ++ "../escape.txt" ++ " escapes the mount point "
          ++ renderAbs (init ++ [lastSeg])) := by
  have hM : ∀ s ∈ init ++ [lastSeg], s ≠ "" ∧ '/' ∉ s.data :=
    fun s hs => ⟨(hclean s hs).1, (hclean s hs).2.2.2⟩
  have hN : ∀ s ∈ init ++ [lastSeg], s ≠ "." ∧ s ≠ ".." :=
    fun s hs => ⟨(hclean s hs).2.1, (hclean s hs).2.2.1⟩
  have habs : resolveFrom cwd (renderAbs (init ++ [lastSeg])) = renderAbs (init ++ [lastSeg]) :=
    resolveFrom_renderAbs_self cwd (init ++ [lastSeg]) hM hN
  have hres : resolveFrom (renderAbs (init ++ [lastSeg])) "../escape.txt"
      = renderAbs (init ++ ["escape.txt"]) := by
    unfold resolveFrom
    rw [show strStartsWith "../escape.txt" "/" = false from by decide]
    simp only [Bool.false_eq_true, if_false]
    rw [segments_renderAbs (init ++ [lastSeg]) hM,
      show segments "../escape.txt" = ["..", "escape.txt"] from by decide,
      normSegs_escape init lastSeg hN]
  have hcmp : strStartsWith (renderAbs (init ++ ["escape.txt"])) (renderAbs (init ++ [lastSeg]))
      = false := by
    unfold strStartsWith
    rw [prefixCompare init lastSeg "escape.txt"]
    exact hlast
  simp only [resolveWithinMount, habs, hres, hcmp, Bool.false_eq_true, if_false]

/-- C1 witness: for the mount `/mnt/rpi` (final segment `rpi`, not a
prefix of `escape.txt`) the escaping target is rejected with the
mount-escape error. -/
theorem resolveWithinMount_escape_amended_witness :
    resolveWithinMount "/" "/mnt/rpi" "../escape.txt"
      = .error ("Path " ++ "../escape.txt" ++ " escapes the mount point " ++ "/mnt/rpi") := by
  have h := resolveWithinMount_escape_amended "/" ["mnt"] "rpi" (by decide) (by decide)
  rw [show renderAbs (["mnt"] ++ ["rpi"]) = "/mnt/rpi" from by decide] at h
  exact h

end Raspimcu
